import Mathlib

/-!
Shallow embedding of the library-catalog core of `src/app.py` (the `Library`
class and its dataclasses `Book`, `Member`, `Transaction`), together with
proofs settling the specification claims about it.

Modelling conventions:
* Python dicts keyed by strings become association lists `List (String × β)`
  with `find?` (first match, as dict lookup) and `upsert` (replace the first
  binding in place, else append, as dict assignment preserving insertion
  order).
* Calendar dates become integers (day numbers); `date.today()` becomes an
  explicit `today : Int` argument, and `timedelta(days=d)` becomes `+ d`.
* `uuid.uuid4()` generated identifiers become explicit string arguments; the
  reachability relation below carries the freshness facts that uuid
  generation provides.
* Monetary amounts (`fine_per_day`, `fine_paid`) become rationals `ℚ`.
* The generic Python exceptions become a typed error value `LibError`:
  `notFound` for the "Invalid member or book." raise and for dict `KeyError`,
  `unavailable` for "Book not available.", `alreadyReturned` for
  "Already returned.".  Because `return_book` mutates the transaction object
  in place before it can fail on the book lookup, the mutating operations
  return the resulting state together with the outcome, `Library × Except
  LibError α`: on an exception the first component is the state as the
  exception leaves it.
-/

namespace LibApp

/-- Lookup in an association list: the value of the first binding of key `k`,
as a Python dict lookup. -/
def find? {β : Type} (k : String) : List (String × β) → Option β
  | [] => none
  | (k1, v) :: m => if k = k1 then some v else find? k m

/-- Write `m[k] = v` on an association list: replace the first binding of `k`
in place, or append a new binding at the end, as a Python dict assignment
preserves insertion order. -/
def upsert {β : Type} (k : String) (v : β) : List (String × β) → List (String × β)
  | [] => [(k, v)]
  | (k1, v1) :: m => if k = k1 then (k, v) :: m else (k1, v1) :: upsert k v m

/-- The `Book` dataclass of `src/app.py`. -/
structure Book where
  isbn : String
  title : String
  authors : List String
  total_copies : Int
  available_copies : Int
  pub_year : Option Int
  tags : List String
deriving DecidableEq, Repr

/-- The `Member` dataclass of `src/app.py`; `joined_on` is a date (day
number). -/
structure Member where
  member_id : String
  name : String
  email : Option String
  phone : Option String
  joined_on : Int
deriving DecidableEq, Repr

/-- The `Transaction` dataclass of `src/app.py`; dates are day numbers,
`returned_on` is absent while the loan is open. -/
structure Transaction where
  txn_id : String
  member_id : String
  isbn : String
  issued_on : Int
  due_on : Int
  returned_on : Option Int
  fine_paid : ℚ
deriving DecidableEq, Repr

/-- Error kinds for the exceptions raised by the `Library` methods. -/
inductive LibError where
  | notFound
  | unavailable
  | alreadyReturned
deriving DecidableEq, Repr

/-- The `Library` class state: the three dicts plus the configured
`fine_per_day` rate (constructor default 1.0). -/
structure Library where
  books : List (String × Book)
  members : List (String × Member)
  transactions : List (String × Transaction)
  fine_per_day : ℚ
deriving DecidableEq, Repr

/-- `Library.__init__` with the default rate: the empty catalog. -/
def Library.empty (fine_per_day : ℚ := 1) : Library :=
  { books := [], members := [], transactions := [], fine_per_day := fine_per_day }

/-- `Library.add_book`.  `tags = tags or []` maps `None` (and the falsy empty
list) to `[]`, which is exactly `Option.getD []` on an optional list argument.
If the isbn is already present both counters are incremented and the other
fields are untouched; otherwise a fresh `Book` is stored with
`total_copies = available_copies = copies`. -/
def Library.add_book (lib : Library) (isbn title : String) (authors : List String)
    (copies : Int := 1) (pub_year : Option Int := none)
    (tags : Option (List String) := none) : Library :=
  let tagList := tags.getD []
  match find? isbn lib.books with
  | some b =>
      let b1 := { b with total_copies := b.total_copies + copies,
                         available_copies := b.available_copies + copies }
      { lib with books := upsert isbn b1 lib.books }
  | none =>
      { lib with books := upsert isbn ⟨isbn, title, authors, copies, copies, pub_year, tagList⟩ lib.books }

/-- `Library.add_member`.  The uuid4 member id and the creation date
`date.today()` are explicit arguments. -/
def Library.add_member (lib : Library) (member_id name : String)
    (email phone : Option String) (joined_on : Int) : Library × Member :=
  let m : Member := ⟨member_id, name, email, phone, joined_on⟩
  ({ lib with members := upsert member_id m lib.members }, m)

/-- `Library.issue_book`.  The source first raises when
`isbn not in self.books or member_id not in self.members`, then raises when
`available_copies <= 0`, and only then mutates: it decrements the
availability and stores a fresh open transaction (uuid4 id `txnId`,
`issued_on = today`, `due_on = today + days`). -/
def Library.issue_book (lib : Library) (member_id isbn txnId : String)
    (today : Int) (days : Int := 14) : Library × Except LibError Transaction :=
  match find? isbn lib.books, find? member_id lib.members with
  | some b, some _ =>
      if b.available_copies ≤ 0 then
        (lib, Except.error LibError.unavailable)
      else
        let txn : Transaction := ⟨txnId, member_id, isbn, today, today + days, none, 0⟩
        let b1 := { b with available_copies := b.available_copies - 1 }
        ({ lib with books := upsert isbn b1 lib.books,
                    transactions := upsert txnId txn lib.transactions },
         Except.ok txn)
  | _, _ => (lib, Except.error LibError.notFound)

/-- The fine expression of `Library.return_book`:
`max(0, (today - due).days) * self.fine_per_day if today > due else 0`. -/
def fineOf (rate : ℚ) (due today : Int) : ℚ :=
  if due < today then ((max 0 (today - due) : Int) : ℚ) * rate else 0

/-- `Library.return_book`.  The dict access `self.transactions[txn_id]`
raises `KeyError` (`notFound`) when absent; a truthy `returned_on` raises
`alreadyReturned`.  Otherwise the fine is
`max(0, (today - due).days) * fine_per_day if today > due else 0`, the
transaction is mutated in place (`returned_on`, `fine_paid`) and only then is
`self.books[t.isbn]` looked up: when that book is absent the `KeyError`
escapes with the transaction already mutated, which the state component of
the result records. -/
def Library.return_book (lib : Library) (txn_id : String) (today : Int) :
    Library × Except LibError ℚ :=
  match find? txn_id lib.transactions with
  | none => (lib, Except.error LibError.notFound)
  | some t =>
      if t.returned_on.isSome then
        (lib, Except.error LibError.alreadyReturned)
      else
        let fine : ℚ := fineOf lib.fine_per_day t.due_on today
        let t1 : Transaction := { t with returned_on := some today, fine_paid := fine }
        let lib1 : Library := { lib with transactions := upsert txn_id t1 lib.transactions }
        match find? t.isbn lib1.books with
        | none => (lib1, Except.error LibError.notFound)
        | some b =>
            let b1 := { b with available_copies := b.available_copies + 1 }
            ({ lib1 with books := upsert t.isbn b1 lib1.books }, Except.ok fine)

/-! ### Association-list lemmas -/

theorem find?_upsert_self {β : Type} (k : String) (v : β) (m : List (String × β)) :
    find? k (upsert k v m) = some v := by
  induction m with
  | nil => simp [find?, upsert]
  | cons hd tl ih =>
      obtain ⟨k1, v1⟩ := hd
      by_cases h : k = k1 <;> simp [find?, upsert, h, ih]

theorem find?_upsert_ne {β : Type} {k k1 : String} (v : β) (m : List (String × β))
    (h : k1 ≠ k) : find? k1 (upsert k v m) = find? k1 m := by
  induction m with
  | nil => simp [find?, upsert, h]
  | cons hd tl ih =>
      obtain ⟨k2, v2⟩ := hd
      by_cases h2 : k = k2
      · subst h2
        simp [find?, upsert, h]
      · by_cases h3 : k1 = k2 <;> simp [find?, upsert, h2, h3, ih]

theorem upsert_of_find?_none {β : Type} {k : String} (v : β) {m : List (String × β)}
    (h : find? k m = none) : upsert k v m = m ++ [(k, v)] := by
  induction m with
  | nil => simp [upsert]
  | cons hd tl ih =>
      obtain ⟨k1, v1⟩ := hd
      by_cases h1 : k = k1
      · simp [find?, h1] at h
      · simp [find?, h1] at h
        simp [upsert, h1, ih h]

theorem upsert_of_find?_some_self {β : Type} {k : String} {v : β} {m : List (String × β)}
    (h : find? k m = some v) : upsert k v m = m := by
  induction m with
  | nil => simp [find?] at h
  | cons hd tl ih =>
      obtain ⟨k1, v1⟩ := hd
      by_cases h1 : k = k1
      · simp [find?, h1] at h
        simp [upsert, h1, h]
      · simp [find?, h1] at h
        simp [upsert, h1, ih h]

theorem upsert_upsert {β : Type} (k : String) (v v1 : β) (m : List (String × β)) :
    upsert k v (upsert k v1 m) = upsert k v m := by
  induction m with
  | nil => simp [upsert]
  | cons hd tl ih =>
      obtain ⟨k1, w⟩ := hd
      by_cases h : k = k1 <;> simp [upsert, h, ih]

theorem mem_upsert {β : Type} {k : String} {v : β} {m : List (String × β)}
    {p : String × β} (h : p ∈ upsert k v m) : p = (k, v) ∨ p ∈ m := by
  induction m with
  | nil => simpa [upsert] using h
  | cons hd tl ih =>
      obtain ⟨k1, v1⟩ := hd
      by_cases h1 : k = k1
      · simp [upsert, h1] at h
        rcases h with h | h
        · exact Or.inl (by simp [h, h1])
        · exact Or.inr (by simp [h])
      · simp [upsert, h1] at h
        rcases h with h | h
        · exact Or.inr (by simp [h])
        · rcases ih h with h2 | h2
          · exact Or.inl h2
          · exact Or.inr (by simp [h2])

theorem find?_mem {β : Type} {k : String} {v : β} {m : List (String × β)}
    (h : find? k m = some v) : (k, v) ∈ m := by
  induction m with
  | nil => simp [find?] at h
  | cons hd tl ih =>
      obtain ⟨k1, v1⟩ := hd
      by_cases h1 : k = k1
      · simp [find?, h1] at h
        simp [h1, h]
      · simp [find?, h1] at h
        simp [ih h]

theorem find?_append_of_none {β : Type} {k : String} {xs : List (String × β)}
    (ys : List (String × β)) (h : find? k xs = none) :
    find? k (xs ++ ys) = find? k ys := by
  induction xs with
  | nil => simp
  | cons hd tl ih =>
      obtain ⟨k1, v1⟩ := hd
      by_cases h1 : k = k1
      · simp [find?, h1] at h
      · simp [find?, h1] at h
        simp [find?, h1, ih h]

theorem upsert_append_of_none {β : Type} {k : String} (v : β) {xs : List (String × β)}
    (ys : List (String × β)) (h : find? k xs = none) :
    upsert k v (xs ++ ys) = xs ++ upsert k v ys := by
  induction xs with
  | nil => simp
  | cons hd tl ih =>
      obtain ⟨k1, v1⟩ := hd
      by_cases h1 : k = k1
      · simp [find?, h1] at h
      · simp [find?, h1] at h
        simp [upsert, h1, ih h]

/-! ### The copy-reconciliation invariant -/

/-- 1 when the transaction is an open loan of `isbn`, else 0. -/
def contribOpen (t : Transaction) (isbn : String) : Nat :=
  if t.isbn = isbn ∧ t.returned_on = none then 1 else 0

/-- Number of transactions in the dict that are open loans of `isbn`. -/
def openCount (txns : List (String × Transaction)) (isbn : String) : Nat :=
  txns.countP fun p => decide (p.2.isbn = isbn ∧ p.2.returned_on = none)

theorem openCount_nil (isbn : String) : openCount [] isbn = 0 := rfl

theorem openCount_append (xs ys : List (String × Transaction)) (isbn : String) :
    openCount (xs ++ ys) isbn = openCount xs isbn + openCount ys isbn :=
  List.countP_append _ _ _

theorem openCount_singleton (k : String) (t : Transaction) (isbn : String) :
    openCount [(k, t)] isbn = contribOpen t isbn := by
  simp only [openCount, contribOpen, List.countP_cons, List.countP_nil]
  by_cases h : t.isbn = isbn ∧ t.returned_on = none <;> simp [h]

theorem openCount_upsert_found {k : String} {t : Transaction}
    {m : List (String × Transaction)} (t1 : Transaction) (isbn : String)
    (h : find? k m = some t) :
    openCount (upsert k t1 m) isbn + contribOpen t isbn
      = openCount m isbn + contribOpen t1 isbn := by
  induction m with
  | nil => simp [find?] at h
  | cons hd tl ih =>
      obtain ⟨k1, t2⟩ := hd
      by_cases h1 : k = k1
      · simp [find?, h1] at h
        subst h
        simp only [upsert, if_pos h1, openCount, List.countP_cons]
        have hc : ∀ u : Transaction,
            (if decide (u.isbn = isbn ∧ u.returned_on = none) = true then 1 else 0)
              = contribOpen u isbn := by
          intro u
          by_cases hu : u.isbn = isbn ∧ u.returned_on = none <;> simp [contribOpen, hu]
        rw [hc, hc]
        omega
      · simp [find?, h1] at h
        simp only [upsert, if_neg h1, openCount, List.countP_cons]
        have := ih h
        simp only [openCount] at this
        omega

theorem openCount_eq_zero {txns : List (String × Transaction)} {isbn : String}
    (h : ∀ p ∈ txns, p.2.isbn ≠ isbn) : openCount txns isbn = 0 := by
  simp only [openCount]
  rw [List.countP_eq_zero]
  intro p hp
  simp [h p hp]

/-- The book-count part of the catalog invariant: every stored `Book` has
`0 ≤ available_copies ≤ total_copies` and `available_copies` equal to
`total_copies` minus the number of open transactions for its key. -/
def BookInvariant (lib : Library) : Prop :=
  ∀ isbn b, find? isbn lib.books = some b →
    0 ≤ b.available_copies ∧ b.available_copies ≤ b.total_copies ∧
      b.available_copies = b.total_copies - (openCount lib.transactions isbn : Int)

/-- Every transaction refers to a book present in the catalog. -/
def TxnBooksExist (lib : Library) : Prop :=
  ∀ p ∈ lib.transactions, ∃ b, find? p.2.isbn lib.books = some b

/-- The full inductive invariant carried through the reachability proof. -/
def CatalogInv (lib : Library) : Prop :=
  TxnBooksExist lib ∧ BookInvariant lib

/-! ### Reachability

A catalog state is reachable when it arises from an empty catalog by some
sequence of the four mutating operations.  The uuid4-generated identifiers
appear as explicit arguments, so the relation records the freshness that
uuid generation provides; `P` constrains the `copies` argument passed to
`add_book` (`fun _ => True` places no constraint, as in the source, which
never validates it). -/
inductive Reachable (P : Int → Prop) : Library → Prop where
  | init (fpd : ℚ) : Reachable P (Library.empty fpd)
  | add_book {lib : Library} (isbn title : String) (authors : List String)
      (copies : Int) (pub_year : Option Int) (tags : Option (List String))
      (hlib : Reachable P lib) (hc : P copies) :
      Reachable P (lib.add_book isbn title authors copies pub_year tags)
  | add_member {lib : Library} (member_id name : String) (email phone : Option String)
      (joined_on : Int) (hlib : Reachable P lib)
      (hfresh : find? member_id lib.members = none) :
      Reachable P (lib.add_member member_id name email phone joined_on).1
  | issue {lib : Library} (member_id isbn txnId : String) (today days : Int)
      (hlib : Reachable P lib) (hfresh : find? txnId lib.transactions = none) :
      Reachable P (lib.issue_book member_id isbn txnId today days).1
  | ret {lib : Library} (txn_id : String) (today : Int) (hlib : Reachable P lib) :
      Reachable P (lib.return_book txn_id today).1

/-! ### Shape lemmas: each operation branch in closed form -/

theorem add_book_found {lib : Library} {isbn : String} {b : Book} (title : String)
    (authors : List String) (copies : Int) (pub_year : Option Int)
    (tags : Option (List String)) (hb : find? isbn lib.books = some b) :
    lib.add_book isbn title authors copies pub_year tags
      = { lib with books := upsert isbn ({ b with total_copies := b.total_copies + copies, available_copies := b.available_copies + copies }) lib.books } := by
  simp [Library.add_book, hb]

theorem add_book_new {lib : Library} {isbn : String} (title : String)
    (authors : List String) (copies : Int) (pub_year : Option Int)
    (tags : Option (List String)) (hb : find? isbn lib.books = none) :
    lib.add_book isbn title authors copies pub_year tags
      = { lib with books := upsert isbn ⟨isbn, title, authors, copies, copies, pub_year, tags.getD []⟩ lib.books } := by
  simp [Library.add_book, hb]

theorem issue_book_ok {lib : Library} {member_id isbn : String} {b : Book} {m : Member}
    (txnId : String) (today days : Int)
    (hb : find? isbn lib.books = some b) (hm : find? member_id lib.members = some m)
    (hav : 0 < b.available_copies) :
    lib.issue_book member_id isbn txnId today days
      = ({ lib with books := upsert isbn ({ b with available_copies := b.available_copies - 1 }) lib.books, transactions := upsert txnId ⟨txnId, member_id, isbn, today, today + days, none, 0⟩ lib.transactions }, Except.ok ⟨txnId, member_id, isbn, today, today + days, none, 0⟩) := by
  simp [Library.issue_book, hb, hm, not_le.mpr hav]

theorem issue_book_unavailable {lib : Library} {member_id isbn : String} {b : Book}
    {m : Member} (txnId : String) (today days : Int)
    (hb : find? isbn lib.books = some b) (hm : find? member_id lib.members = some m)
    (hav : b.available_copies ≤ 0) :
    lib.issue_book member_id isbn txnId today days
      = (lib, Except.error LibError.unavailable) := by
  simp [Library.issue_book, hb, hm, hav]

theorem return_book_notFound {lib : Library} {txn_id : String} (today : Int)
    (h : find? txn_id lib.transactions = none) :
    lib.return_book txn_id today = (lib, Except.error LibError.notFound) := by
  simp [Library.return_book, h]

theorem return_book_already {lib : Library} {txn_id : String} {t : Transaction}
    (today : Int) (ht : find? txn_id lib.transactions = some t)
    (hr : t.returned_on.isSome) :
    lib.return_book txn_id today = (lib, Except.error LibError.alreadyReturned) := by
  simp [Library.return_book, ht, hr]

theorem return_book_open_ok {lib : Library} {txn_id : String} {t : Transaction} {b : Book}
    (today : Int) (ht : find? txn_id lib.transactions = some t)
    (hr : t.returned_on = none) (hb : find? t.isbn lib.books = some b) :
    lib.return_book txn_id today
      = ({ lib with books := upsert t.isbn ({ b with available_copies := b.available_copies + 1 }) lib.books, transactions := upsert txn_id ({ t with returned_on := some today, fine_paid := fineOf lib.fine_per_day t.due_on today }) lib.transactions }, Except.ok (fineOf lib.fine_per_day t.due_on today)) := by
  simp [Library.return_book, ht, hr, hb]

theorem return_book_open_nobook {lib : Library} {txn_id : String} {t : Transaction}
    (today : Int) (ht : find? txn_id lib.transactions = some t)
    (hr : t.returned_on = none) (hb : find? t.isbn lib.books = none) :
    lib.return_book txn_id today
      = ({ lib with transactions := upsert txn_id ({ t with returned_on := some today, fine_paid := fineOf lib.fine_per_day t.due_on today }) lib.transactions }, Except.error LibError.notFound) := by
  simp [Library.return_book, ht, hr, hb]

/-! ### Invariant preservation -/

theorem catalogInv_empty (fpd : ℚ) : CatalogInv (Library.empty fpd) := by
  constructor
  · intro p hp
    simp [Library.empty] at hp
  · intro isbn b hb
    simp [Library.empty, find?] at hb

theorem catalogInv_add_book {lib : Library} (h : CatalogInv lib) (isbn title : String)
    (authors : List String) {copies : Int} (pub_year : Option Int)
    (tags : Option (List String)) (hc : 0 ≤ copies) :
    CatalogInv (lib.add_book isbn title authors copies pub_year tags) := by
  obtain ⟨hT, hB⟩ := h
  cases hfind : find? isbn lib.books with
  | some b =>
      rw [add_book_found title authors copies pub_year tags hfind]
      constructor
      · intro p hp
        obtain ⟨bb, hbb⟩ := hT p hp
        by_cases hi : p.2.isbn = isbn
        · exact ⟨_, by rw [hi]; exact find?_upsert_self ..⟩
        · exact ⟨bb, by rw [find?_upsert_ne _ _ hi]; exact hbb⟩
      · intro i bk hbk
        by_cases hi : i = isbn
        · subst hi
          rw [find?_upsert_self] at hbk
          injection hbk with hbk
          subst hbk
          obtain ⟨h1, h2, h3⟩ := hB i b hfind
          dsimp only
          refine ⟨by omega, by omega, by omega⟩
        · rw [find?_upsert_ne _ _ hi] at hbk
          exact hB i bk hbk
  | none =>
      rw [add_book_new title authors copies pub_year tags hfind]
      constructor
      · intro p hp
        obtain ⟨bb, hbb⟩ := hT p hp
        by_cases hi : p.2.isbn = isbn
        · rw [hi, hfind] at hbb
          cases hbb
        · exact ⟨bb, by rw [find?_upsert_ne _ _ hi]; exact hbb⟩
      · intro i bk hbk
        by_cases hi : i = isbn
        · subst hi
          rw [find?_upsert_self] at hbk
          injection hbk with hbk
          subst hbk
          have hzero : openCount lib.transactions i = 0 := by
            apply openCount_eq_zero
            intro p hp hcontra
            obtain ⟨bb, hbb⟩ := hT p hp
            rw [hcontra, hfind] at hbb
            cases hbb
          dsimp only
          rw [hzero]
          exact ⟨hc, le_refl _, by omega⟩
        · rw [find?_upsert_ne _ _ hi] at hbk
          exact hB i bk hbk

theorem catalogInv_add_member {lib : Library} (h : CatalogInv lib)
    (member_id name : String) (email phone : Option String) (joined_on : Int) :
    CatalogInv (lib.add_member member_id name email phone joined_on).1 := by
  obtain ⟨hT, hB⟩ := h
  exact ⟨fun p hp => hT p hp, fun i bk hbk => hB i bk hbk⟩

theorem catalogInv_issue {lib : Library} (h : CatalogInv lib)
    (member_id isbn txnId : String) (today days : Int)
    (hfresh : find? txnId lib.transactions = none) :
    CatalogInv (lib.issue_book member_id isbn txnId today days).1 := by
  obtain ⟨hT, hB⟩ := h
  cases hbfind : find? isbn lib.books with
  | none =>
      cases hmfind : find? member_id lib.members with
      | none =>
          simp only [Library.issue_book, hbfind, hmfind]
          exact ⟨hT, hB⟩
      | some m =>
          simp only [Library.issue_book, hbfind, hmfind]
          exact ⟨hT, hB⟩
  | some b =>
      cases hmfind : find? member_id lib.members with
      | none =>
          simp only [Library.issue_book, hbfind, hmfind]
          exact ⟨hT, hB⟩
      | some m =>
          by_cases hav : b.available_copies ≤ 0
          · rw [issue_book_unavailable txnId today days hbfind hmfind hav]
            exact ⟨hT, hB⟩
          · push_neg at hav
            rw [issue_book_ok txnId today days hbfind hmfind hav]
            have htxns : upsert txnId (⟨txnId, member_id, isbn, today, today + days, none, 0⟩ : Transaction) lib.transactions = lib.transactions ++ [(txnId, ⟨txnId, member_id, isbn, today, today + days, none, 0⟩)] :=
              upsert_of_find?_none _ hfresh
            constructor
            · intro p hp
              rcases mem_upsert hp with hp1 | hp1
              · subst hp1
                exact ⟨_, find?_upsert_self ..⟩
              · obtain ⟨bb, hbb⟩ := hT p hp1
                by_cases hi : p.2.isbn = isbn
                · exact ⟨_, by rw [hi]; exact find?_upsert_self ..⟩
                · exact ⟨bb, by rw [find?_upsert_ne _ _ hi]; exact hbb⟩
            · intro i bk hbk
              dsimp only at hbk ⊢
              rw [htxns, openCount_append, openCount_singleton]
              by_cases hi : i = isbn
              · subst hi
                rw [find?_upsert_self] at hbk
                injection hbk with hbk
                subst hbk
                obtain ⟨h1, h2, h3⟩ := hB i b hbfind
                have hcontrib : contribOpen ⟨txnId, member_id, i, today, today + days, none, 0⟩ i = 1 := by
                  simp [contribOpen]
                rw [hcontrib]
                dsimp only
                refine ⟨by omega, by omega, ?_⟩
                push_cast
                omega
              · rw [find?_upsert_ne _ _ hi] at hbk
                obtain ⟨h1, h2, h3⟩ := hB i bk hbk
                have hne : ¬ isbn = i := fun hh => hi hh.symm
                have hcontrib : contribOpen ⟨txnId, member_id, isbn, today, today + days, none, 0⟩ i = 0 := by
                  simp [contribOpen, hne]
                rw [hcontrib]
                refine ⟨h1, h2, by omega⟩

theorem catalogInv_ret {lib : Library} (h : CatalogInv lib) (txn_id : String)
    (today : Int) : CatalogInv (lib.return_book txn_id today).1 := by
  obtain ⟨hT, hB⟩ := h
  cases ht : find? txn_id lib.transactions with
  | none =>
      rw [return_book_notFound today ht]
      exact ⟨hT, hB⟩
  | some t =>
      cases hr : t.returned_on with
      | some d =>
          rw [return_book_already today ht (by simp [hr])]
          exact ⟨hT, hB⟩
      | none =>
          cases hbfind : find? t.isbn lib.books with
          | none =>
              exfalso
              obtain ⟨bb, hbb⟩ := hT (txn_id, t) (find?_mem ht)
              rw [hbfind] at hbb
              cases hbb
          | some b =>
              rw [return_book_open_ok today ht hr hbfind]
              have hopen := openCount_upsert_found (m := lib.transactions)
                ({ t with returned_on := some today, fine_paid := fineOf lib.fine_per_day t.due_on today }) t.isbn ht
              constructor
              · intro p hp
                rcases mem_upsert hp with hp1 | hp1
                · subst hp1
                  exact ⟨_, find?_upsert_self ..⟩
                · obtain ⟨bb, hbb⟩ := hT p hp1
                  by_cases hi : p.2.isbn = t.isbn
                  · exact ⟨_, by rw [hi]; exact find?_upsert_self ..⟩
                  · exact ⟨bb, by rw [find?_upsert_ne _ _ hi]; exact hbb⟩
              · intro i bk hbk
                dsimp only at hbk ⊢
                by_cases hi : i = t.isbn
                · subst hi
                  rw [find?_upsert_self] at hbk
                  injection hbk with hbk
                  subst hbk
                  obtain ⟨h1, h2, h3⟩ := hB t.isbn b hbfind
                  have hc1 : contribOpen t t.isbn = 1 := by simp [contribOpen, hr]
                  have hc2 : contribOpen ({ t with returned_on := some today, fine_paid := fineOf lib.fine_per_day t.due_on today }) t.isbn = 0 := by
                    simp [contribOpen]
                  rw [hc1, hc2] at hopen
                  dsimp only
                  refine ⟨by omega, by omega, by omega⟩
                · rw [find?_upsert_ne _ _ hi] at hbk
                  obtain ⟨h1, h2, h3⟩ := hB i bk hbk
                  have hopen2 := openCount_upsert_found (m := lib.transactions)
                    ({ t with returned_on := some today, fine_paid := fineOf lib.fine_per_day t.due_on today }) i ht
                  have hne : ¬ t.isbn = i := fun hh => hi hh.symm
                  have hc1 : contribOpen t i = 0 := by
                    simp [contribOpen, hne]
                  have hc2 : contribOpen ({ t with returned_on := some today, fine_paid := fineOf lib.fine_per_day t.due_on today }) i = 0 := by
                    simp [contribOpen]
                  rw [hc1, hc2] at hopen2
                  refine ⟨h1, h2, by omega⟩

/-- Every state reachable with nonnegative `copies` arguments satisfies the
full catalog invariant. -/
theorem reachable_catalogInv {P : Int → Prop} (hP : ∀ c, P c → 0 ≤ c)
    {lib : Library} (h : Reachable P lib) : CatalogInv lib := by
  induction h with
  | init fpd => exact catalogInv_empty fpd
  | add_book isbn title authors copies pub_year tags hlib hc ih =>
      exact catalogInv_add_book ih isbn title authors pub_year tags (hP copies hc)
  | add_member member_id name email phone joined_on hlib hfresh ih =>
      exact catalogInv_add_member ih member_id name email phone joined_on
  | issue member_id isbn txnId today days hlib hfresh ih =>
      exact catalogInv_issue ih member_id isbn txnId today days hfresh
  | ret txn_id today hlib ih =>
      exact catalogInv_ret ih txn_id today

/-! ### Persistence: the JSON document produced by `save` and read by `load`

`asdict` turns each dataclass into a flat dictionary of its fields; the
field values occurring here are strings, integers (dates as day numbers),
rationals (fines), nulls and string lists, captured by `Jv`. -/

/-- A JSON field value as it occurs in the persisted document. -/
inductive Jv where
  | null
  | str (v : String)
  | int (v : Int)
  | num (v : ℚ)
  | strList (vs : List String)
deriving DecidableEq, Repr

def asStr : Jv → Option String
  | Jv.str v => some v
  | _ => none

def asInt : Jv → Option Int
  | Jv.int v => some v
  | _ => none

def asNum : Jv → Option ℚ
  | Jv.num v => some v
  | _ => none

def asStrList : Jv → Option (List String)
  | Jv.strList vs => some vs
  | _ => none

def asOptInt : Jv → Option (Option Int)
  | Jv.null => some none
  | Jv.int v => some (some v)
  | _ => none

def asOptStr : Jv → Option (Option String)
  | Jv.null => some none
  | Jv.str v => some (some v)
  | _ => none

def encOptInt : Option Int → Jv
  | none => Jv.null
  | some v => Jv.int v

def encOptStr : Option String → Jv
  | none => Jv.null
  | some v => Jv.str v

/-- `Book.to_dict` (that is, `dataclasses.asdict`): every field, keyed by its
name. -/
def Book.to_dict (b : Book) : List (String × Jv) :=
  [("isbn", Jv.str b.isbn), ("title", Jv.str b.title),
   ("authors", Jv.strList b.authors), ("total_copies", Jv.int b.total_copies),
   ("available_copies", Jv.int b.available_copies),
   ("pub_year", encOptInt b.pub_year), ("tags", Jv.strList b.tags)]

/-- `Book(**b)` applied to a full field dictionary as `asdict` emits it
(`asdict` always writes every field, so all keys are present). -/
def Book.ofDict (d : List (String × Jv)) : Option Book := do
  let isbn ← (find? "isbn" d).bind asStr
  let title ← (find? "title" d).bind asStr
  let authors ← (find? "authors" d).bind asStrList
  let total ← (find? "total_copies" d).bind asInt
  let avail ← (find? "available_copies" d).bind asInt
  let pub ← (find? "pub_year" d).bind asOptInt
  let tagList ← (find? "tags" d).bind asStrList
  some ⟨isbn, title, authors, total, avail, pub, tagList⟩

/-- `Member.to_dict`. -/
def Member.to_dict (m : Member) : List (String × Jv) :=
  [("member_id", Jv.str m.member_id), ("name", Jv.str m.name),
   ("email", encOptStr m.email), ("phone", encOptStr m.phone),
   ("joined_on", Jv.int m.joined_on)]

/-- `Member(**x)` on a full field dictionary. -/
def Member.ofDict (d : List (String × Jv)) : Option Member := do
  let member_id ← (find? "member_id" d).bind asStr
  let name ← (find? "name" d).bind asStr
  let email ← (find? "email" d).bind asOptStr
  let phone ← (find? "phone" d).bind asOptStr
  let joined_on ← (find? "joined_on" d).bind asInt
  some ⟨member_id, name, email, phone, joined_on⟩

/-- `Transaction.to_dict`. -/
def Transaction.to_dict (t : Transaction) : List (String × Jv) :=
  [("txn_id", Jv.str t.txn_id), ("member_id", Jv.str t.member_id),
   ("isbn", Jv.str t.isbn), ("issued_on", Jv.int t.issued_on),
   ("due_on", Jv.int t.due_on), ("returned_on", encOptInt t.returned_on),
   ("fine_paid", Jv.num t.fine_paid)]

/-- `Transaction(**x)` on a full field dictionary. -/
def Transaction.ofDict (d : List (String × Jv)) : Option Transaction := do
  let txn_id ← (find? "txn_id" d).bind asStr
  let member_id ← (find? "member_id" d).bind asStr
  let isbn ← (find? "isbn" d).bind asStr
  let issued_on ← (find? "issued_on" d).bind asInt
  let due_on ← (find? "due_on" d).bind asInt
  let returned_on ← (find? "returned_on" d).bind asOptInt
  let fine_paid ← (find? "fine_paid" d).bind asNum
  some ⟨txn_id, member_id, isbn, issued_on, due_on, returned_on, fine_paid⟩

/-- The persisted document: the three named collections written by
`Library.to_dict` / `json.dump`. -/
structure LibDoc where
  books : List (String × List (String × Jv))
  members : List (String × List (String × Jv))
  transactions : List (String × List (String × Jv))
deriving DecidableEq, Repr

/-- `Library.to_dict`: each collection mapped entrywise through the entity
`to_dict`. -/
def Library.to_dict (lib : Library) : LibDoc :=
  { books := lib.books.map fun p => (p.1, p.2.to_dict),
    members := lib.members.map fun p => (p.1, p.2.to_dict),
    transactions := lib.transactions.map fun p => (p.1, p.2.to_dict) }

/-- `Library.save`: the document written to the byte store is exactly
`to_dict` (the `json.dump` encoding of it). -/
def Library.save (lib : Library) : LibDoc := lib.to_dict

/-- `Library.load` on a present file: start from `cls()` — whose
`fine_per_day` is the constructor default 1.0 — then rebuild each collection
with `Book(**b)`, `Member(**x)`, `Transaction(**x)`.  A malformed document
makes the Python constructors fail, which `none` models. -/
def Library.load (d : LibDoc) : Option Library := do
  let books ← d.books.mapM fun p => (Book.ofDict p.2).map fun b => (p.1, b)
  let members ← d.members.mapM fun p => (Member.ofDict p.2).map fun m => (p.1, m)
  let txns ← d.transactions.mapM fun p => (Transaction.ofDict p.2).map fun t => (p.1, t)
  some { books := books, members := members, transactions := txns, fine_per_day := 1 }

/-! ### Round-trip lemmas -/

theorem book_ofDict_to_dict (b : Book) : Book.ofDict b.to_dict = some b := by
  obtain ⟨isbn, title, authors, total, avail, pub, tagList⟩ := b
  cases pub <;> rfl

theorem member_ofDict_to_dict (m : Member) : Member.ofDict m.to_dict = some m := by
  obtain ⟨member_id, name, email, phone, joined_on⟩ := m
  cases email <;> cases phone <;> rfl

theorem transaction_ofDict_to_dict (t : Transaction) :
    Transaction.ofDict t.to_dict = some t := by
  obtain ⟨txn_id, member_id, isbn, issued_on, due_on, returned_on, fine_paid⟩ := t
  cases returned_on <;> rfl

theorem mapM_entry_roundtrip {α : Type} (enc : α → List (String × Jv))
    (dec : List (String × Jv) → Option α) (h : ∀ a, dec (enc a) = some a)
    (l : List (String × α)) :
    (l.map fun p => (p.1, enc p.2)).mapM (fun p => (dec p.2).map fun a => (p.1, a))
      = some l := by
  induction l with
  | nil => rfl
  | cons hd tl ih =>
      rw [List.map_cons, List.mapM_cons, h, ih]
      rfl

/-- `load` applied to the document `save` writes reconstructs the books,
members and transactions verbatim, while `fine_per_day` comes from the
`cls()` constructor default. -/
theorem load_save (lib : Library) :
    Library.load (Library.save lib)
      = some { books := lib.books, members := lib.members, transactions := lib.transactions, fine_per_day := 1 } := by
  simp only [Library.save, Library.load, Library.to_dict]
  rw [mapM_entry_roundtrip _ _ book_ofDict_to_dict,
      mapM_entry_roundtrip _ _ member_ofDict_to_dict,
      mapM_entry_roundtrip _ _ transaction_ofDict_to_dict]
  rfl

/-! ### Concrete fixtures used by the witnesses -/

def lib0 : Library := Library.empty 1

/-- One book (2 copies) and one member. -/
def libA : Library :=
  ((lib0.add_book "isbn1" "Title" ["A"] 2 none none).add_member "m1" "Alice" none none 0).1

/-- `libA` after issuing one copy on day 0 for 14 days (transaction `t1`). -/
def libB : Library := (libA.issue_book "m1" "isbn1" "t1" 0 14).1

/-- `libB` after returning `t1` on its due date. -/
def libC : Library := (libB.return_book "t1" 14).1

/-- `libB` after issuing the last copy as well: `available_copies = 0`. -/
def libE : Library := (libB.issue_book "m1" "isbn1" "t2" 0 14).1

/-- A catalog holding an open transaction whose isbn has no book entry. -/
def libF : Library :=
  { books := [], members := [],
    transactions := [("t9", ⟨"t9", "m1", "ghost", 0, 14, none, 0⟩)], fine_per_day := 1 }

/-! ### The claims -/

/-- C2: for every open transaction and every return date `today`, a
successful `return` computes the fine as
`max(0, today - due_on) * fine_per_day` and returns it. -/
theorem C2_fine_formula (lib : Library) (txn_id : String) (t : Transaction)
    (b : Book) (today : Int) (ht : find? txn_id lib.transactions = some t)
    (hr : t.returned_on = none) (hb : find? t.isbn lib.books = some b) :
    (lib.return_book txn_id today).2
      = Except.ok (((max 0 (today - t.due_on) : Int) : ℚ) * lib.fine_per_day) := by
  rw [return_book_open_ok today ht hr hb]
  dsimp only
  unfold fineOf
  by_cases hlt : t.due_on < today
  · rw [if_pos hlt]
  · rw [if_neg hlt]
    rw [max_eq_left (by omega : today - t.due_on ≤ 0)]
    norm_num

/-- C2 witness: the spec scenario with `fine_per_day = 1`: a loan issued on
day 0 with `days = 14` returned on day 14 yields fine 0, and returned on day
20 yields fine 6. -/
theorem C2_witness :
    (libB.return_book "t1" 14).2 = Except.ok 0 ∧
    (libB.return_book "t1" 20).2 = Except.ok 6 := by
  constructor
  · have h := C2_fine_formula libB "t1" ⟨"t1", "m1", "isbn1", 0, 14, none, 0⟩
      ⟨"isbn1", "Title", ["A"], 2, 1, none, []⟩ 14 (by rfl) rfl (by rfl)
    rw [h]
    norm_num
  · have h := C2_fine_formula libB "t1" ⟨"t1", "m1", "isbn1", 0, 14, none, 0⟩
      ⟨"isbn1", "Title", ["A"], 2, 1, none, []⟩ 20 (by rfl) rfl (by rfl)
    have hf : libB.fine_per_day = 1 := rfl
    rw [h, hf]
    norm_num

/-- C3: starting from a catalog without the isbn, two `add_book` calls with
`copies = N` produce the same copy counts as one call with `copies = 2N`,
and title, authors, pub_year and tags keep the first call values. -/
theorem C3_add_book_merge (lib : Library) (isbn title1 title2 : String)
    (authors1 authors2 : List String) (N : Int) (pub1 pub2 : Option Int)
    (tags1 tags2 : Option (List String)) (_hN : 1 ≤ N)
    (hfresh : find? isbn lib.books = none) :
    ∃ bD bS,
      find? isbn ((lib.add_book isbn title1 authors1 N pub1 tags1).add_book isbn title2 authors2 N pub2 tags2).books = some bD ∧
      find? isbn (lib.add_book isbn title1 authors1 (2 * N) pub1 tags1).books = some bS ∧
      bD.total_copies = bS.total_copies ∧ bD.available_copies = bS.available_copies ∧
      bD.title = title1 ∧ bD.authors = authors1 ∧ bD.pub_year = pub1 ∧
      bD.tags = tags1.getD [] := by
  have hfind1 : find? isbn (lib.add_book isbn title1 authors1 N pub1 tags1).books
      = some ⟨isbn, title1, authors1, N, N, pub1, tags1.getD []⟩ := by
    rw [add_book_new title1 authors1 N pub1 tags1 hfresh]
    exact find?_upsert_self ..
  refine ⟨⟨isbn, title1, authors1, N + N, N + N, pub1, tags1.getD []⟩,
          ⟨isbn, title1, authors1, 2 * N, 2 * N, pub1, tags1.getD []⟩,
          ?_, ?_, by dsimp only; ring, by dsimp only; ring, rfl, rfl, rfl, rfl⟩
  · rw [add_book_found title2 authors2 N pub2 tags2 hfind1]
    exact find?_upsert_self ..
  · rw [add_book_new title1 authors1 (2 * N) pub1 tags1 hfresh]
    exact find?_upsert_self ..

/-- C3 witness at a concrete input: `N = 3` on an empty catalog. -/
theorem C3_witness :
    ∃ bD bS,
      find? "x" (((Library.empty 1).add_book "x" "T1" ["A1"] 3 none none).add_book "x" "T2" ["A2"] 3 none none).books = some bD ∧
      find? "x" ((Library.empty 1).add_book "x" "T1" ["A1"] (2 * 3) none none).books = some bS ∧
      bD.total_copies = bS.total_copies ∧ bD.available_copies = bS.available_copies ∧
      bD.title = "T1" ∧ bD.authors = ["A1"] ∧ bD.pub_year = none ∧
      bD.tags = (none : Option (List String)).getD [] :=
  C3_add_book_merge (Library.empty 1) "x" "T1" "T2" ["A1"] ["A2"] 3 none none none none
    (by norm_num) rfl

/-- C4: returning a transaction whose `returned_on` is already set fails with
`alreadyReturned` and leaves the entire catalog unchanged. -/
theorem C4_already_returned (lib : Library) (txn_id : String) (t : Transaction)
    (today : Int) (ht : find? txn_id lib.transactions = some t)
    (hr : t.returned_on.isSome) :
    lib.return_book txn_id today = (lib, Except.error LibError.alreadyReturned) :=
  return_book_already today ht hr

/-- C4 witness: re-returning the already-returned `t1` of `libC`. -/
theorem C4_witness :
    libC.return_book "t1" 99 = (libC, Except.error LibError.alreadyReturned) :=
  C4_already_returned libC "t1" ⟨"t1", "m1", "isbn1", 0, 14, some 14, 0⟩ 99
    (by rfl) (by rfl)

/-- C5: issuing an existing book to an existing member fails with
`unavailable` when `available_copies = 0`, and the catalog is unchanged. -/
theorem C5_unavailable (lib : Library) (member_id isbn txnId : String)
    (m : Member) (b : Book) (today days : Int)
    (hm : find? member_id lib.members = some m)
    (hb : find? isbn lib.books = some b) (hav : b.available_copies = 0) :
    lib.issue_book member_id isbn txnId today days
      = (lib, Except.error LibError.unavailable) :=
  issue_book_unavailable txnId today days hb hm (by omega)

/-- C5 witness: `libE` has both copies out, so a further issue fails. -/
theorem C5_witness :
    libE.issue_book "m1" "isbn1" "t3" 5 14 = (libE, Except.error LibError.unavailable) :=
  C5_unavailable libE "m1" "isbn1" "t3" ⟨"m1", "Alice", none, none, 0⟩
    ⟨"isbn1", "Title", ["A"], 2, 0, none, []⟩ 5 14 (by rfl) (by rfl) (by rfl)

/-- C6: returning an unknown `txn_id` fails with `notFound` and leaves all
books, members and transactions unchanged. -/
theorem C6_return_not_found (lib : Library) (txn_id : String) (today : Int)
    (h : find? txn_id lib.transactions = none) :
    lib.return_book txn_id today = (lib, Except.error LibError.notFound) :=
  return_book_notFound today h

/-- C6 witness at a concrete input. -/
theorem C6_witness :
    lib0.return_book "nope" 0 = (lib0, Except.error LibError.notFound) :=
  C6_return_not_found lib0 "nope" 0 rfl

/-- C7: loading the document produced by saving a catalog reproduces the
same books, members and transactions with the same field values. -/
theorem C7_load_save_roundtrip (lib : Library) :
    Library.load (Library.save lib)
      = some { books := lib.books, members := lib.members, transactions := lib.transactions, fine_per_day := 1 } :=
  load_save lib

/-- C9: the save/load contract never persists `fine_per_day`: whatever rate
the catalog was constructed with, the loaded catalog has the constructor
default 1. -/
theorem C9_fine_per_day_not_persisted (lib : Library) :
    (Library.load (Library.save lib)).map Library.fine_per_day = some 1 := by
  rw [load_save]
  rfl

/-- C10: when an open transaction references an isbn absent from the books
dict, `return` fails, yet the transaction has already been mutated
(`returned_on` and `fine_paid` are written before the book lookup), so the
state is not left unchanged on this error. -/
theorem C10_partial_mutation_on_error (lib : Library) (txn_id : String)
    (t : Transaction) (today : Int) (ht : find? txn_id lib.transactions = some t)
    (hr : t.returned_on = none) (hb : find? t.isbn lib.books = none) :
    (lib.return_book txn_id today).2 = Except.error LibError.notFound ∧
    find? txn_id (lib.return_book txn_id today).1.transactions
      = some ({ t with returned_on := some today, fine_paid := fineOf lib.fine_per_day t.due_on today }) ∧
    (lib.return_book txn_id today).1 ≠ lib := by
  rw [return_book_open_nobook today ht hr hb]
  refine ⟨rfl, find?_upsert_self .., ?_⟩
  intro hcontra
  have h2 := congrArg (fun l : Library => find? txn_id l.transactions) hcontra
  dsimp only at h2
  rw [find?_upsert_self, ht] at h2
  injection h2 with h3
  have h4 := congrArg Transaction.returned_on h3
  rw [hr] at h4
  exact Option.noConfusion h4

/-- C10 witness: `libF` holds the open transaction `t9` for the missing isbn
`ghost`; returning it on day 20 fails yet mutates the transaction. -/
theorem C10_witness :
    (libF.return_book "t9" 20).2 = Except.error LibError.notFound ∧
    find? "t9" (libF.return_book "t9" 20).1.transactions
      = some ⟨"t9", "m1", "ghost", 0, 14, some 20, 6⟩ ∧
    (libF.return_book "t9" 20).1 ≠ libF := by
  have h := C10_partial_mutation_on_error libF "t9" ⟨"t9", "m1", "ghost", 0, 14, none, 0⟩
    20 (by rfl) rfl (by rfl)
  refine ⟨h.1, ?_, h.2.2⟩
  have hf : libF.fine_per_day = 1 := rfl
  rw [h.2.1, hf]
  norm_num [fineOf]

/-- C8: a successful issue decrements exactly the issued book availability by
1 and appends exactly one new open transaction, leaving members, the other
books and the other transactions unchanged; the paired successful return
restores that book exactly (so every book is back to its original entry) and
closes exactly that transaction, leaving everything else unchanged. -/
theorem C8_issue_return_frame (lib : Library) (member_id isbn txnId : String)
    (m : Member) (b : Book) (today days today2 : Int)
    (hm : find? member_id lib.members = some m) (hb : find? isbn lib.books = some b)
    (hav : 0 < b.available_copies) (hfresh : find? txnId lib.transactions = none) :
    (lib.issue_book member_id isbn txnId today days).2
        = Except.ok ⟨txnId, member_id, isbn, today, today + days, none, 0⟩ ∧
    find? isbn (lib.issue_book member_id isbn txnId today days).1.books
        = some ({ b with available_copies := b.available_copies - 1 }) ∧
    (∀ i, i ≠ isbn → find? i (lib.issue_book member_id isbn txnId today days).1.books = find? i lib.books) ∧
    (lib.issue_book member_id isbn txnId today days).1.members = lib.members ∧
    (lib.issue_book member_id isbn txnId today days).1.transactions
        = lib.transactions ++ [(txnId, ⟨txnId, member_id, isbn, today, today + days, none, 0⟩)] ∧
    ((lib.issue_book member_id isbn txnId today days).1.return_book txnId today2).2
        = Except.ok (fineOf lib.fine_per_day (today + days) today2) ∧
    ((lib.issue_book member_id isbn txnId today days).1.return_book txnId today2).1.books = lib.books ∧
    ((lib.issue_book member_id isbn txnId today days).1.return_book txnId today2).1.members = lib.members ∧
    ((lib.issue_book member_id isbn txnId today days).1.return_book txnId today2).1.transactions
        = lib.transactions ++ [(txnId, ⟨txnId, member_id, isbn, today, today + days, some today2, fineOf lib.fine_per_day (today + days) today2⟩)] := by
  have hissue := issue_book_ok txnId today days hb hm hav
  have hb1 : find? isbn (lib.issue_book member_id isbn txnId today days).1.books
      = some ({ b with available_copies := b.available_copies - 1 }) := by
    rw [hissue]
    exact find?_upsert_self ..
  have htx1 : (lib.issue_book member_id isbn txnId today days).1.transactions
      = lib.transactions ++ [(txnId, ⟨txnId, member_id, isbn, today, today + days, none, 0⟩)] := by
    rw [hissue]
    exact upsert_of_find?_none _ hfresh
  have hfind_t : find? txnId (lib.issue_book member_id isbn txnId today days).1.transactions
      = some ⟨txnId, member_id, isbn, today, today + days, none, 0⟩ := by
    rw [htx1, find?_append_of_none _ hfresh]
    simp [find?]
  have hfpd : (lib.issue_book member_id isbn txnId today days).1.fine_per_day
      = lib.fine_per_day := by
    rw [hissue]
  have hret := return_book_open_ok (t := ⟨txnId, member_id, isbn, today, today + days, none, 0⟩)
    today2 hfind_t rfl hb1
  have hbeq : ({ b with available_copies := b.available_copies - 1 + 1 }) = b := by
    obtain ⟨i1, t1, a1, tc, ac, p1, g1⟩ := b
    dsimp only
    rw [Int.sub_add_cancel]
  refine ⟨by rw [hissue], hb1, ?_, by rw [hissue], htx1, ?_, ?_, ?_, ?_⟩
  · intro i hi
    rw [hissue]
    exact find?_upsert_ne _ _ hi
  · rw [hret, hfpd]
  · rw [hret]
    dsimp only
    rw [hissue]
    dsimp only
    rw [upsert_upsert]
    have hb2 : ({ b with available_copies := b.available_copies - 1 } : Book).available_copies + 1
        = b.available_copies - 1 + 1 := rfl
    rw [show ({ b with available_copies := b.available_copies - 1 } : Book).available_copies + 1 = b.available_copies - 1 + 1 from rfl] at *
    calc upsert isbn ({ b with available_copies := b.available_copies - 1 + 1 }) lib.books
        = upsert isbn b lib.books := by rw [hbeq]
      _ = lib.books := upsert_of_find?_some_self hb
  · rw [hret]
    dsimp only
    rw [hissue]
  · rw [hret, hfpd]
    dsimp only
    rw [htx1, upsert_append_of_none _ _ hfresh]
    simp [upsert]

/-- C8 witness: the concrete issue/return pair of `libA` (issue on day 0 for
14 days, return on day 20). -/
theorem C8_witness :
    (libA.issue_book "m1" "isbn1" "t1" 0 14).2
        = Except.ok ⟨"t1", "m1", "isbn1", 0, 0 + 14, none, 0⟩ ∧
    find? "isbn1" (libA.issue_book "m1" "isbn1" "t1" 0 14).1.books
        = some ({ (⟨"isbn1", "Title", ["A"], 2, 2, none, []⟩ : Book) with available_copies := (⟨"isbn1", "Title", ["A"], 2, 2, none, []⟩ : Book).available_copies - 1 }) ∧
    (∀ i, i ≠ "isbn1" → find? i (libA.issue_book "m1" "isbn1" "t1" 0 14).1.books = find? i libA.books) ∧
    (libA.issue_book "m1" "isbn1" "t1" 0 14).1.members = libA.members ∧
    (libA.issue_book "m1" "isbn1" "t1" 0 14).1.transactions
        = libA.transactions ++ [("t1", ⟨"t1", "m1", "isbn1", 0, 0 + 14, none, 0⟩)] ∧
    ((libA.issue_book "m1" "isbn1" "t1" 0 14).1.return_book "t1" 20).2
        = Except.ok (fineOf libA.fine_per_day (0 + 14) 20) ∧
    ((libA.issue_book "m1" "isbn1" "t1" 0 14).1.return_book "t1" 20).1.books = libA.books ∧
    ((libA.issue_book "m1" "isbn1" "t1" 0 14).1.return_book "t1" 20).1.members = libA.members ∧
    ((libA.issue_book "m1" "isbn1" "t1" 0 14).1.return_book "t1" 20).1.transactions
        = libA.transactions ++ [("t1", ⟨"t1", "m1", "isbn1", 0, 0 + 14, some 20, fineOf libA.fine_per_day (0 + 14) 20⟩)] :=
  C8_issue_return_frame libA "m1" "isbn1" "t1" ⟨"m1", "Alice", none, none, 0⟩
    ⟨"isbn1", "Title", ["A"], 2, 2, none, []⟩ 0 14 20 (by rfl) (by rfl)
    (by norm_num) (by rfl)

/-- C1 counterexample: the claim quantifies over arbitrary operation
sequences, and the source never validates `copies`, so a single `add_book`
with `copies = -1` reaches a state whose book has
`available_copies = -1 < 0`. -/
theorem C1_counterexample :
    Reachable (fun _ => True) ((Library.empty 1).add_book "i" "t" [] (-1) none none) ∧
    ¬ BookInvariant ((Library.empty 1).add_book "i" "t" [] (-1) none none) := by
  constructor
  · exact Reachable.add_book "i" "t" [] (-1) none none (Reachable.init 1) trivial
  · intro h
    have h2 := h "i" ⟨"i", "t", [], -1, -1, none, []⟩ (by rfl)
    have h3 : (0 : Int) ≤ -1 := h2.1
    omega

/-- C1 (amended): restricted to operation sequences in which every
`add_book` call passes `copies ≥ 1` — the constraint the spec states and the
source does not enforce — every reachable catalog satisfies the full book
invariant: `0 ≤ available_copies ≤ total_copies` and `available_copies =
total_copies` minus the number of open transactions for the book key. -/
theorem C1_invariant_amended (lib : Library)
    (h : Reachable (fun c => 1 ≤ c) lib) : BookInvariant lib :=
  (reachable_catalogInv (fun _ hc => by omega) h).2

/-- C1 witness: the invariant holds at the concrete reachable state `libB`. -/
theorem C1_witness : Reachable (fun c => 1 ≤ c) libB ∧ BookInvariant libB := by
  have h0 : Reachable (fun c => 1 ≤ c) (Library.empty 1) := Reachable.init 1
  have h1 := Reachable.add_book "isbn1" "Title" ["A"] 2 none none h0 (by norm_num)
  have h2 := Reachable.add_member "m1" "Alice" none none 0 h1 (by rfl)
  have h3 := Reachable.issue "m1" "isbn1" "t1" 0 14 h2 (by rfl)
  exact ⟨h3, C1_invariant_amended libB h3⟩

end LibApp
